import Mathlib

/-!
Verification of core behaviours of a high-availability cluster resource
manager (controller executor interface, fencing daemon, transition engine,
remote executor client), shallowly embedded from the C sources:

* `daemons/controld/controld_execd.c` — resource history cache and
  operation construction,
* `fencing/commands.c` — fencing device selection, host-map parsing and
  host-check policies,
* the transition-engine utility file — stonith-connection loss handling,
  transition-abort suppression,
* the executor client library — remote (TLS) transport late-reply
  accounting.

GLib hash tables are modelled as association lists, GLists as Lean lists
(an empty `GList` is the NULL pointer, hence the empty list), C strings as
`String`, and child-process/agent executions as explicit oracle arguments.
-/

/-- ASCII lower-casing of one character (the `tolower` of the C locale). -/
def lowerChar (c : Char) : Char :=
  if 'A' ≤ c ∧ c ≤ 'Z' then Char.ofNat (c.toNat + 32) else c

/-- `crm_str_eq(a, b, FALSE)` / `safe_str_eq` / `pcmk__str_casei`:
case-insensitive string comparison (`strcasecmp == 0`). -/
def strCaseEq (a b : String) : Bool :=
  a.data.map lowerChar == b.data.map lowerChar

/-- `pcmk__strcase_any_of(s, ...)`: `s` matches one of the given strings,
case-insensitively. -/
def strCaseAnyOf (s : String) (l : List String) : Bool :=
  l.any (fun t => strCaseEq s t)

/-- `strstr(hay, needle) != NULL`: `needle` occurs as a substring. -/
def containsSub (needle hay : List Char) : Bool :=
  hay.tails.any (fun t => needle.isPrefixOf t)

/-! ### String constants from the headers -/

def CRM_META : String := "CRM_meta"

def RSC_NOTIFY : String := "notify"

def CRMD_ACTION_START : String := "start"

/-- `CRMD_ACTION_STATUS` / `RSC_STATUS` is the "monitor" task. -/
def RSC_STATUS : String := "monitor"

def RSC_STOP : String := "stop"

def CRM_OP_FENCE : String := "stonith"

/-- `PCMK_LRM_OP_DONE` from the executor enum. -/
def PCMK_LRM_OP_DONE : Int := 0

/-- `PCMK_LRM_OP_CANCELLED` from the executor enum. -/
def PCMK_LRM_OP_CANCELLED : Int := 1

def pcmk_ok : Int := 0

/-! ### Executor interface: resource history cache (`controld_execd.c`) -/

/-- `lrmd_event_data_t`, restricted to the fields the history cache reads.
`target_rc` stands for the target rc decoded from the transition key in
`user_data`. `params` is the operation's parameter table (`NULL` allowed). -/
structure LrmdEvent where
  rsc_id : String
  op_type : String
  interval_ms : Nat
  call_id : Int
  op_status : Int
  rc : Int
  target_rc : Int
  rsc_deleted : Bool
  params : Option (List (String × String))
deriving DecidableEq

/-- `lrmd_rsc_info_t`: the static class/provider/type triple. -/
structure LrmdRscInfo where
  std : String
  provider : Option String
  ty : String
deriving DecidableEq

/-- `rsc_history_t`: one resource's history entry. -/
structure RscHistory where
  rsc : LrmdRscInfo
  last : Option LrmdEvent
  failed : Option LrmdEvent
  recurring_op_list : List LrmdEvent
  stop_params : Option (List (String × String))
  last_callid : Int
deriving DecidableEq

/-- `copy_instance_keys`: keep only keys without a `CRM_meta_` substring. -/
def copy_instance_keys (src : List (String × String)) : List (String × String) :=
  src.filter (fun kv => !containsSub (CRM_META ++ "_").data kv.1.data)

/-- `copy_meta_keys`: keep only keys with a `CRM_meta_` substring. -/
def copy_meta_keys (src : List (String × String)) : List (String × String) :=
  src.filter (fun kv => containsSub (CRM_META ++ "_").data kv.1.data)

/-- The matching test of `history_remove_recurring_op`: same interval,
same resource id (case-sensitive), same task (case-insensitive). -/
def recurring_op_matches (op existing : LrmdEvent) : Bool :=
  op.interval_ms == existing.interval_ms
    && op.rsc_id == existing.rsc_id
    && strCaseEq op.op_type existing.op_type

/-- `history_remove_recurring_op`: delete the first recurring entry that
matches `op`, keep the rest. -/
def history_remove_recurring_op (l : List LrmdEvent) (op : LrmdEvent) : List LrmdEvent :=
  match l with
  | [] => []
  | e :: rest =>
      if recurring_op_matches op e then rest
      else e :: history_remove_recurring_op rest op

/-- Modelled from the spec: `rsc_op_expected_rc` (not under `src/`) decodes
the target rc from the transition key carried in `user_data`; the embedding
stores that decoded value directly in the event. -/
def rsc_op_expected_rc (op : LrmdEvent) : Int :=
  op.target_rc

/-- Modelled from the spec: `did_rsc_op_fail` (not under `src/`) — "If the
op failed (observed rc ≠ target rc), replace the entry's `failed` slot." -/
def did_rsc_op_fail (op : LrmdEvent) (target_rc : Int) : Bool :=
  op.rc != target_rc

/-- External side effect of `update_history_cache`. -/
inductive HistEffect
  | purgedCib (rsc_id : String)
  | ignoredNotify
  | noResource
  | updated
deriving DecidableEq

/-- The in-memory history table `lrm_state->resource_history`,
as an association list keyed by resource id. -/
def HistCache := List (String × RscHistory)

/-- Store (insert or replace) an entry in the history table. -/
def cacheStore (cache : List (String × RscHistory)) (id : String) (e : RscHistory) :
    List (String × RscHistory) :=
  (id, e) :: cache.filter (fun kv => kv.1 ≠ id)

/-- A freshly `calloc`ed history entry for `rsc`. -/
def freshHistory (rsc : LrmdRscInfo) : RscHistory :=
  { rsc := rsc, last := none, failed := none, recurring_op_list := [],
    stop_params := none, last_callid := 0 }

/-- The entry-lookup ladder of `update_history_cache`: the existing entry
if present, else a freshly allocated one when `rsc` is known, else none. -/
def history_entry_for (cache : List (String × RscHistory))
    (rsc : Option LrmdRscInfo) (rsc_id : String) : Option RscHistory :=
  match cache.lookup rsc_id with
  | some e => some e
  | none =>
      match rsc with
      | some info => some (freshHistory info)
      | none => none

/-- The entry mutations of `update_history_cache` once an entry is in
hand: record the call id, then the cancelled / failed / successful
non-recurring if-chain, then the trailing recurring-list block. Only a
cancelled recurring op returns early (after its removal); a cancelled
op with interval 0 merely logs and falls through to the trailing block,
like every other case. -/
def updated_history_entry (e0 : RscHistory) (op : LrmdEvent) : RscHistory :=
  let e1 := { e0 with last_callid := op.call_id }
  let target_rc := rsc_op_expected_rc op
  if op.op_status == PCMK_LRM_OP_CANCELLED && op.interval_ms > 0 then
    { e1 with
      recurring_op_list := history_remove_recurring_op e1.recurring_op_list op }
  else
    let e2 :=
      if op.op_status == PCMK_LRM_OP_CANCELLED then
        e1
      else if did_rsc_op_fail op target_rc then
        { e1 with failed := some op }
      else if op.interval_ms == 0 then
        let e' := { e1 with last := some op }
        match op.params with
        | some ps =>
            if strCaseAnyOf op.op_type [CRMD_ACTION_START, "reload", RSC_STATUS] then
              { e' with stop_params := some (copy_instance_keys ps) }
            else e'
        | none => e'
      else e1
    if op.interval_ms > 0 then
      { e2 with recurring_op_list :=
          op :: history_remove_recurring_op e2.recurring_op_list op }
    else if !e2.recurring_op_list.isEmpty && !strCaseEq op.op_type RSC_STATUS then
      { e2 with recurring_op_list := [] }
    else e2

/-- `update_history_cache`: record an operation result in the history
table. Returns the new table and the externally visible effect. -/
def update_history_cache (cache : List (String × RscHistory))
    (rsc : Option LrmdRscInfo) (op : LrmdEvent) :
    List (String × RscHistory) × HistEffect :=
  if op.rsc_deleted then
    (cache, HistEffect.purgedCib op.rsc_id)
  else if strCaseEq op.op_type RSC_NOTIFY then
    (cache, HistEffect.ignoredNotify)
  else
    match history_entry_for cache rsc op.rsc_id with
    | none => (cache, HistEffect.noResource)
    | some e0 =>
        (cacheStore cache op.rsc_id (updated_history_entry e0 op),
         HistEffect.updated)

/-- The parameter-selection logic of `construct_op` (the `op->params`
assignment for stop vs non-stop operations): a stop with cached
`stop_params` takes the meta keys from the request and the instance keys
from the cache; otherwise the request parameters are used as given. -/
def construct_op_params (operation : String) (params : List (String × String))
    (entry : Option RscHistory) : List (String × String) :=
  if !strCaseEq operation RSC_STOP then params
  else
    match entry with
    | none => params
    | some e =>
        match e.stop_params with
        | none => params
        | some sp => copy_meta_keys params ++ copy_instance_keys sp

/-- The deduplication key of a recurring operation:
(resource id, task lowered for the case-insensitive comparison, interval). -/
def histKey (e : LrmdEvent) : String × List Char × Nat :=
  (e.rsc_id, e.op_type.data.map lowerChar, e.interval_ms)

/-- Invariant: a recurring list holds at most one entry per
(resource id, task, interval) triple. -/
def recurringUnique (l : List LrmdEvent) : Prop :=
  (l.map histKey).Nodup

/-! ### Fencing daemon (`fencing/commands.c`) -/

/-- The parser state of `build_port_aliases` while scanning the host map.
`acc` holds the characters scanned since the last recorded boundary, i.e.
the slice `hostmap[last..lpc)` the C code extracts with `strncpy`. -/
structure BpaState where
  acc : List Char
  name : Option (List Char)
  aliases : List (String × String)
deriving DecidableEq

/-- `g_hash_table_replace` on an association list: drop any binding of the
key, then append the new one. -/
def hashReplace (m : List (String × String)) (k v : String) : List (String × String) :=
  m.filter (fun kv => kv.1 ≠ k) ++ [(k, v)]

/-- One step of the `build_port_aliases` scanner: the `switch` over
`hostmap[lpc]`. `=`/`:` record the pending slice as a name (only when
nonempty, `lpc > last`); NUL, `;`, space and tab close an entry (a pending
name with no assignment is a parse error and contributes nothing); every
other character — including `,`, whose delimiter case is commented out in
the source — is accumulated. -/
def bpaChar (st : BpaState) (c : Char) : BpaState :=
  if c = '=' ∨ c = ':' then
    { st with
      name := if st.acc.isEmpty then st.name else some st.acc,
      acc := [] }
  else if c = '\x00' ∨ c = ';' ∨ c = ' ' ∨ c = '\t' then
    match st.name with
    | some n =>
        { acc := [], name := none,
          aliases := hashReplace st.aliases (String.mk n) (String.mk st.acc) }
    | none => { st with acc := [] }
  else
    { st with acc := st.acc ++ [c] }

/-- `build_port_aliases`: scan the host map up to and including its NUL
terminator and collect the `NAME(=|:)VALUE` aliases. -/
def build_port_aliases (hostmap : String) : List (String × String) :=
  ((hostmap.data ++ ['\x00']).foldl bpaChar
    { acc := [], name := none, aliases := [] }).aliases

/-- Spec-side formatter for the amended host-map grammar: pairs joined
with a single separator character. -/
def formatPair (p : List Char × List Char) : List Char :=
  p.1 ++ '=' :: p.2

/-- Spec-side formatter: `formatHostmap sep pairs` joins formatted pairs
with `sep`. -/
def formatHostmap (sep : Char) : List (List Char × List Char) → List Char
  | [] => []
  | [p] => formatPair p
  | p :: q :: rest => formatPair p ++ sep :: formatHostmap sep (q :: rest)

/-- A character that the `build_port_aliases` scanner treats as ordinary
content: not an assignment character, not a delimiter, not NUL.
Note that `,` is ordinary. -/
def bpaOrdinary (c : Char) : Prop :=
  c ≠ '=' ∧ c ≠ ':' ∧ c ≠ '\x00' ∧ c ≠ ';' ∧ c ≠ ' ' ∧ c ≠ '\t'

instance instDecidableBpaOrdinary (c : Char) : Decidable (bpaOrdinary c) := by
  unfold bpaOrdinary
  exact inferInstance

/-- `string_in_list`: membership via `safe_str_eq` (case-insensitive). -/
def string_in_list (l : List String) (item : String) : Bool :=
  l.any (fun v => strCaseEq item v)

/-- `stonith_device_t`, restricted to the fields device selection reads.
`hostcheck` and `has_hostlist` stand for the `pcmk_host_check` and
`pcmk_host_list` entries of `device->params`; an absent `GList` of targets
is the empty list. -/
structure StonithDevice where
  id : String
  agent : String
  priority : Int
  aliases : List (String × String)
  hostcheck : Option String
  has_hostlist : Bool
  targets : List String
  targets_age : Int
deriving DecidableEq

/-- Outcome of `run_stonith_agent` for one invocation: the fork/exec
result `exec_rc`, the agent's exit code `rc`, and — for the `list`
action — the parsed host list of its output. -/
structure AgentRun where
  exec_rc : Int
  rc : Int
  output_hosts : List String
deriving DecidableEq

/-- Result of `can_fence_host_with_device`: the answer, the (possibly
updated) device, and whether the agent's `list` / `status` action ran. -/
structure CanFenceResult where
  can : Bool
  dev : StonithDevice
  ran_list : Bool
  ran_status : Bool
deriving DecidableEq

/-- `can_fence_host_with_device`: decide whether `dev` can fence `host`
at time `now`. `list_run` and `status_run` are the oracles for the agent
invocations the function may perform. -/
def can_fence_host_with_device (dev : StonithDevice) (host : Option String)
    (now : Int) (list_run status_run : AgentRun) : CanFenceResult :=
  match host with
  | none => ⟨true, dev, false, false⟩
  | some h =>
      let al := ((dev.aliases.lookup h).getD h)
      let check_type :=
        match dev.hostcheck with
        | some ct => ct
        | none => if dev.has_hostlist then "static-list" else "dynamic-list"
      if strCaseEq check_type "none" then
        ⟨true, dev, false, false⟩
      else if strCaseEq check_type "static-list" then
        ⟨string_in_list dev.targets h, dev, false, false⟩
      else if strCaseEq check_type "dynamic-list" then
        if dev.targets_age < 0 then
          ⟨string_in_list dev.targets al, dev, false, false⟩
        else if dev.targets.isEmpty || dev.targets_age + 60 < now then
          if list_run.exec_rc < 0 ∨ list_run.rc ≠ 0 then
            let dev' := { dev with targets := [], targets_age := -1 }
            ⟨string_in_list dev'.targets al, dev', true, false⟩
          else
            let dev' := { dev with targets := list_run.output_hosts, targets_age := now }
            ⟨string_in_list dev'.targets al, dev', true, false⟩
        else
          ⟨string_in_list dev.targets al, dev, false, false⟩
      else if strCaseEq check_type "status" then
        if status_run.exec_rc ≠ 0 then ⟨false, dev, false, true⟩
        else if status_run.rc == 1 then ⟨false, dev, false, true⟩
        else if status_run.rc == 0 || status_run.rc == 2 then ⟨true, dev, false, true⟩
        else ⟨false, dev, false, true⟩
      else
        ⟨false, dev, false, false⟩

/-- `sort_device_priority`, exactly as written in the source — including
`dev_b` being initialised from `a` rather than `b`. -/
def sort_device_priority (a b : StonithDevice) : Int :=
  let dev_a := a
  let dev_b := a
  if dev_a.priority > dev_b.priority then -1
  else if dev_a.priority < dev_b.priority then 1
  else 0

/-- The merge step of `g_list_sort`, with a fuel argument for structural
recursion: `cmp <= 0` takes from the left list first (GLib's merge is
stable). -/
def glistMergeGo (cmp : StonithDevice → StonithDevice → Int) :
    Nat → List StonithDevice → List StonithDevice → List StonithDevice
  | _, [], ys => ys
  | _, x :: xs, [] => x :: xs
  | 0, xs, ys => xs ++ ys
  | fuel + 1, x :: xs, y :: ys =>
      if cmp x y ≤ 0 then x :: glistMergeGo cmp fuel xs (y :: ys)
      else y :: glistMergeGo cmp fuel (x :: xs) ys

/-- The merge step of `g_list_sort` (the fuel never runs out). -/
def glistMerge (cmp : StonithDevice → StonithDevice → Int)
    (xs ys : List StonithDevice) : List StonithDevice :=
  glistMergeGo cmp (xs.length + ys.length) xs ys

/-- `g_list_sort` as a half-split merge sort, with a fuel argument for
structural recursion (the fuel `xs.length` never runs out). -/
def glistSortGo (cmp : StonithDevice → StonithDevice → Int) :
    Nat → List StonithDevice → List StonithDevice
  | _, [] => []
  | _, [x] => [x]
  | 0, xs => xs
  | fuel + 1, xs =>
      glistMerge cmp (glistSortGo cmp fuel (xs.take (xs.length / 2)))
        (glistSortGo cmp fuel (xs.drop (xs.length / 2)))

/-- `g_list_sort`. -/
def glistSort (cmp : StonithDevice → StonithDevice → Int)
    (xs : List StonithDevice) : List StonithDevice :=
  glistSortGo cmp xs.length xs

/-- The device-ordering portion of `stonith_fence`: sort the capable
devices with `sort_device_priority`, dispatch to the head, keep the sorted
list as `cmd->device_list` (the fallback order). -/
def stonith_fence_device_order (capable : List StonithDevice) :
    Option (StonithDevice × List StonithDevice) :=
  match glistSort sort_device_priority capable with
  | [] => none
  | d :: rest => some (d, d :: rest)

/-! ### Transition engine (stonith handling, abort protocol) -/

/-- `action_type_e` from the graph structures. -/
inductive ActionType
  | pseudo
  | rsc
  | crm
deriving DecidableEq

/-- `crm_action_t`, restricted to the fields the stonith-failure path
reads. `task` is the `XML_LRM_ATTR_TASK` attribute of the action's XML
(`none` when absent). -/
structure CrmAction where
  id : Nat
  ty : ActionType
  task : Option String
  confirmed : Bool
  failed : Bool
deriving DecidableEq

/-- `synapse_t`: confirmation state, failure state, failure tolerance and
the owned output actions. Action ids are unique across the graph. -/
structure Synapse where
  confirmed : Bool
  failed : Bool
  tolerated : Bool
  actions : List CrmAction
deriving DecidableEq

/-- `enum transition_action`. -/
inductive TransitionAction
  | tg_done
  | tg_stop
  | tg_restart
  | tg_shutdown
deriving DecidableEq

/-- Ordinal of a `transition_action`, for the C `<` comparison. -/
def TransitionAction.ord : TransitionAction → Nat
  | .tg_done => 0
  | .tg_stop => 1
  | .tg_restart => 2
  | .tg_shutdown => 3

/-- `crm_graph_t`, restricted to the fields the claims read. -/
structure CrmGraph where
  synapses : List Synapse
  complete : Bool
  abort_priority : Int
  completion_action : TransitionAction
deriving DecidableEq

/-- Pacemaker's `INFINITY` score. -/
def INFINITY : Int := 1000000

/-- The test of the inner loop of `fail_incompletable_stonith`: an
unconfirmed `action_type_crm` action whose task is `CRM_OP_FENCE`
(compared with `safe_str_eq`, i.e. case-insensitively). -/
def is_incompletable_stonith (a : CrmAction) : Bool :=
  a.ty == ActionType.crm && !a.confirmed &&
    (match a.task with
     | some t => strCaseEq t CRM_OP_FENCE
     | none => false)

/-- The per-synapse step of `fail_incompletable_stonith`: confirmed
synapses are skipped; otherwise every unconfirmed fencing action is marked
failed, and the effect of the per-action `update_graph` call (modelled
from the spec: a synapse with a failed action and no failure tolerance
transitions to confirmed-with-failure; action ids are unique to their
synapse, so each call touches only this synapse) is applied. -/
def fail_synapse_actions (s : Synapse) : Synapse :=
  if s.confirmed then s
  else
    let acts := s.actions.map (fun a =>
      if is_incompletable_stonith a then { a with failed := true } else a)
    if s.actions.any is_incompletable_stonith && !s.tolerated then
      { s with actions := acts, confirmed := true, failed := true }
    else
      { s with actions := acts }

/-- `fail_incompletable_stonith`: fail every unconfirmed fencing action of
every unconfirmed synapse; the boolean reports whether any was found
(`last_action != NULL`), in which case the caller aborts the transition
with `INFINITY`/`tg_restart`. -/
def fail_incompletable_stonith (g : CrmGraph) : CrmGraph × Bool :=
  ({ g with synapses := g.synapses.map fail_synapse_actions },
   g.synapses.any (fun s => !s.confirmed && s.actions.any is_incompletable_stonith))

/-- An abort request `abort_transition(priority, action, text, ...)`. -/
structure AbortReq where
  priority : Int
  action : TransitionAction
deriving DecidableEq

/-- Result of `tengine_stonith_connection_destroy`: the graph afterwards,
the abort request issued by `fail_incompletable_stonith` (if any), and
whether `trigger_graph()` was invoked. -/
structure StonithDestroyResult where
  graph : Option CrmGraph
  abort : Option AbortReq
  triggered : Bool
deriving DecidableEq

/-- `tengine_stonith_connection_destroy`: on the DC, fail all
incompletable stonith actions of the current graph (aborting with
`INFINITY`/`tg_restart` when any exist) and re-trigger the graph. -/
def tengine_stonith_connection_destroy (am_i_dc : Bool) (g : Option CrmGraph) :
    StonithDestroyResult :=
  if am_i_dc then
    match g with
    | none => ⟨none, none, true⟩
    | some gr =>
        let r := fail_incompletable_stonith gr
        ⟨some r.1,
         if r.2 then some ⟨INFINITY, TransitionAction.tg_restart⟩ else none,
         true⟩
  else
    ⟨g, none, false⟩

/-- `enum crmd_fsa_state` of the controller. -/
inductive FsaState
  | S_IDLE
  | S_ELECTION
  | S_INTEGRATION
  | S_FINALIZE_JOIN
  | S_NOT_DC
  | S_POLICY_ENGINE
  | S_RECOVERY
  | S_RELEASE_DC
  | S_STARTING
  | S_PENDING
  | S_STOPPING
  | S_TERMINATE
  | S_TRANSITION_ENGINE
  | S_HALT
  | S_ILLEGAL
deriving DecidableEq

/-- The `switch (fsa_state)` case list shared verbatim by
`abort_transition_graph` and `te_graph_trigger`: the non-leader states in
which both functions return early. -/
def fsa_state_suppresses_te (st : FsaState) : Bool :=
  match st with
  | .S_STARTING => true
  | .S_PENDING => true
  | .S_NOT_DC => true
  | .S_HALT => true
  | .S_ILLEGAL => true
  | .S_STOPPING => true
  | .S_TERMINATE => true
  | _ => false

/-- Modelled from the spec: `update_abort_priority` (library code not
under `src/`) — "updates the graph's abort priority monotonically (greater
priority wins), records the action". -/
def update_abort_priority (g : CrmGraph) (priority : Int)
    (action : TransitionAction) : CrmGraph :=
  let g1 := if g.abort_priority < priority then { g with abort_priority := priority } else g
  if g1.completion_action.ord < action.ord then { g1 with completion_action := action } else g1

/-- Observable outcome of one `abort_transition_graph` call. -/
structure AbortOutcome where
  graph : CrmGraph
  triggered : Bool
  pe_calc_input : Bool
  timer_restarted : Bool
  pe_ref_cleared : Bool
deriving DecidableEq

/-- `abort_transition_graph`: after logging, the non-leader states return
without touching the graph; otherwise the queued policy-engine reference
is cleared and either a re-plan is scheduled (complete graph) or the abort
priority/action are recorded and execution re-triggered.
`timer_period_pos` stands for `transition_timer->period_ms > 0`. -/
def abort_transition_graph (st : FsaState) (g : CrmGraph) (priority : Int)
    (action : TransitionAction) (timer_period_pos : Bool) : AbortOutcome :=
  if fsa_state_suppresses_te st then
    ⟨g, false, false, false, false⟩
  else if g.complete then
    if timer_period_pos then ⟨g, false, false, true, true⟩
    else ⟨g, false, true, false, true⟩
  else
    ⟨update_abort_priority g priority action, true, false, false, true⟩

/-- The portion of `te_graph_trigger` deciding whether `run_graph` is
invoked: no graph, a non-leader state, or an already complete graph all
skip execution. -/
def te_graph_trigger_runs (st : FsaState) (g : Option CrmGraph) : Bool :=
  match g with
  | none => false
  | some gr =>
      if fsa_state_suppresses_te st then false
      else !gr.complete

/-- `stonith_event_t`, restricted to the fields the notification callback
reads. -/
structure StonithEvent where
  result : Int
  target : String
  operation : String
deriving DecidableEq

/-- Terminal behaviour of `tengine_stonith_notify` on a notification. -/
inductive NotifyOutcome
  | halted
  | exited (code : Int)
  | processed
deriving DecidableEq

/-- The self-fence path of `tengine_stonith_notify`: a successful fencing
result whose target equals our node name (compared with
`crm_str_eq(..., TRUE)`, case-sensitively) halts the system; if the halt
is unsupported (`RB_HALT_SYSTEM` not defined) or returns, the process
exits with code 100. All other notifications are processed normally. -/
def tengine_stonith_notify_outcome (ev : StonithEvent) (our_uname : String)
    (halt_supported halt_succeeds : Bool) : NotifyOutcome :=
  if ev.result == pcmk_ok && ev.target == our_uname then
    if halt_supported && halt_succeeds then NotifyOutcome.halted
    else NotifyOutcome.exited 100
  else
    NotifyOutcome.processed

/-! ### Executor client: remote (TLS) transport late replies -/

/-- Executor client transport (`pcmk__client_ipc` / `pcmk__client_tls`). -/
inductive LrmdClientType
  | ipc
  | tls
deriving DecidableEq

/-- Client connection state, restricted to the late-reply accounting. -/
structure LrmdClient where
  ty : LrmdClientType
  connected : Bool
  expected_late_replies : Nat
deriving DecidableEq

/-- `lrmd_send_xml_no_reply`: on the TLS transport a successfully sent
fire-and-forget request increments `expected_late_replies` (because the
framing will deliver a reply nobody waits for); a failed send disconnects.
`send_ok` is the oracle for `lrmd_tls_send` success. The IPC transport
does no late-reply accounting. -/
def lrmd_send_xml_no_reply (st : LrmdClient) (send_ok : Bool) : LrmdClient :=
  match st.ty with
  | .ipc => st
  | .tls =>
      if send_ok then
        { st with expected_late_replies := st.expected_late_replies + 1 }
      else
        { st with connected := false }

/-- One framed message on the remote transport. -/
structure RemoteMsg where
  msg_type : String
  call_id : Int
deriving DecidableEq

/-- Accumulated dispatch state: the late-reply counter and the ids for
which an "outdated reply" error has been logged. -/
structure DispatchAcc where
  late : Nat
  outdated_logged : List Int
deriving DecidableEq

/-- The message handling of `lrmd_tls_dispatch`'s read loop: notifies are
dispatched, a reply is absorbed silently while `expected_late_replies` is
positive and otherwise logged as an outdated reply. -/
def lrmd_dispatch_msg (acc : DispatchAcc) (m : RemoteMsg) : DispatchAcc :=
  if strCaseEq m.msg_type "notify" then acc
  else if strCaseEq m.msg_type "reply" then
    if acc.late > 0 then { acc with late := acc.late - 1 }
    else { acc with outdated_logged := acc.outdated_logged ++ [m.call_id] }
  else acc

/-- `lrmd_tls_dispatch`: process every buffered message in order. -/
def lrmd_tls_dispatch_msgs (late : Nat) (msgs : List RemoteMsg) : DispatchAcc :=
  msgs.foldl lrmd_dispatch_msg { late := late, outdated_logged := [] }

/-- The mismatched-id arm of `lrmd_tls_recv_reply`: a reply whose id is
not the awaited one decrements a positive late-reply counter silently and
is logged as outdated only when the counter is zero. Returns the new
counter and whether the error was logged. -/
def lrmd_recv_reply_mismatch (late : Nat) : Nat × Bool :=
  if late > 0 then (late - 1, false) else (late, true)

/-! ### Theorems -/

/-- Claim C10: processing an operation result whose task is `notify` (and
that does not report the resource as deleted) leaves the resource history
cache completely unchanged — `update_history_cache` returns before
creating or modifying any entry. -/
theorem notify_leaves_history_cache_unchanged
    (cache : List (String × RscHistory)) (rsc : Option LrmdRscInfo) (op : LrmdEvent)
    (hdel : op.rsc_deleted = false)
    (hnotify : strCaseEq op.op_type RSC_NOTIFY = true) :
    (update_history_cache cache rsc op).1 = cache := by
  simp [update_history_cache, hdel, hnotify]

/-- Witness for `notify_leaves_history_cache_unchanged` at a concrete
notify result. -/
theorem notify_leaves_history_cache_unchanged_witness :
    (update_history_cache
      [("r1", freshHistory ⟨"ocf", some "heartbeat", "Dummy"⟩)] none
      { rsc_id := "r1", op_type := "notify", interval_ms := 0, call_id := 3,
        op_status := 0, rc := 0, target_rc := 0, rsc_deleted := false,
        params := none }).1
      = [("r1", freshHistory ⟨"ocf", some "heartbeat", "Dummy"⟩)] :=
  notify_leaves_history_cache_unchanged _ _ _ rfl (by decide)

/-- Claim C5: a successful fencing notification naming the local node as
target attempts an immediate halt; if the halt is unsupported or fails the
process exits with code 100; in no case does it continue processing
messages. -/
theorem self_fence_halts_or_exits_100
    (ev : StonithEvent) (our_uname : String) (halt_supported halt_succeeds : Bool)
    (hres : ev.result = pcmk_ok) (htgt : ev.target = our_uname) :
    (tengine_stonith_notify_outcome ev our_uname halt_supported halt_succeeds
        ≠ NotifyOutcome.processed)
    ∧ (halt_supported = true → halt_succeeds = true →
        tengine_stonith_notify_outcome ev our_uname halt_supported halt_succeeds
          = NotifyOutcome.halted)
    ∧ ((halt_supported = false ∨ halt_succeeds = false) →
        tengine_stonith_notify_outcome ev our_uname halt_supported halt_succeeds
          = NotifyOutcome.exited 100) := by
  cases halt_supported <;> cases halt_succeeds <;>
    simp [tengine_stonith_notify_outcome, hres, htgt]

/-- Witness for `self_fence_halts_or_exits_100` at a concrete
notification targeting the local node with halt unavailable. -/
theorem self_fence_halts_or_exits_100_witness :
    tengine_stonith_notify_outcome
        ⟨pcmk_ok, "east-03", "st_fence"⟩ "east-03" false false
      = NotifyOutcome.exited 100 :=
  (self_fence_halts_or_exits_100 ⟨pcmk_ok, "east-03", "st_fence"⟩ "east-03"
    false false rfl rfl).2.2 (Or.inl rfl)

/-- Claim C8: in the non-leader FSA states (`S_STARTING`, `S_PENDING`,
`S_NOT_DC`, `S_HALT`, `S_STOPPING`, `S_TERMINATE`, `S_ILLEGAL`) a call to
abort the transition graph is suppressed — the graph (including its abort
priority and completion action) is untouched, nothing is re-triggered —
and `te_graph_trigger` does not run the graph either. -/
theorem abort_suppressed_in_nonleader_states
    (st : FsaState) (g : CrmGraph) (priority : Int) (action : TransitionAction)
    (tp : Bool)
    (h : st = FsaState.S_STARTING ∨ st = FsaState.S_PENDING ∨
         st = FsaState.S_NOT_DC ∨ st = FsaState.S_HALT ∨
         st = FsaState.S_STOPPING ∨ st = FsaState.S_TERMINATE ∨
         st = FsaState.S_ILLEGAL) :
    abort_transition_graph st g priority action tp = ⟨g, false, false, false, false⟩
    ∧ te_graph_trigger_runs st (some g) = false := by
  have hs : fsa_state_suppresses_te st = true := by
    rcases h with h | h | h | h | h | h | h <;> subst h <;> rfl
  exact ⟨by simp [abort_transition_graph, hs], by simp [te_graph_trigger_runs, hs]⟩

/-- Witness for `abort_suppressed_in_nonleader_states` in `S_NOT_DC`. -/
theorem abort_suppressed_in_nonleader_states_witness :
    abort_transition_graph FsaState.S_NOT_DC
        ⟨[], false, 0, TransitionAction.tg_done⟩ INFINITY
        TransitionAction.tg_restart true
      = ⟨⟨[], false, 0, TransitionAction.tg_done⟩, false, false, false, false⟩
    ∧ te_graph_trigger_runs FsaState.S_NOT_DC
        (some ⟨[], false, 0, TransitionAction.tg_done⟩) = false :=
  abort_suppressed_in_nonleader_states FsaState.S_NOT_DC
    ⟨[], false, 0, TransitionAction.tg_done⟩ INFINITY
    TransitionAction.tg_restart true (Or.inr (Or.inr (Or.inl rfl)))

/-- If the message is a (case-insensitive) "reply", it is not a "notify". -/
theorem reply_is_not_notify (m : RemoteMsg)
    (h : strCaseEq m.msg_type "reply" = true) :
    strCaseEq m.msg_type "notify" = false := by
  unfold strCaseEq at h ⊢
  rw [beq_iff_eq] at h
  rw [h]
  decide

/-- A dispatch run that sees no more replies than the starting counter
logs nothing (generalised over the accumulator for the induction). -/
theorem dispatch_foldl_no_logs (msgs : List RemoteMsg) :
    ∀ acc : DispatchAcc,
      (msgs.filter (fun mm => strCaseEq mm.msg_type "reply")).length ≤ acc.late →
      (msgs.foldl lrmd_dispatch_msg acc).outdated_logged = acc.outdated_logged := by
  induction msgs with
  | nil => intro acc _; rfl
  | cons m rest ih =>
      intro acc hle
      by_cases hr : strCaseEq m.msg_type "reply" = true
      · have hn := reply_is_not_notify m hr
        rw [List.filter_cons_of_pos (by simpa using hr)] at hle
        have hpos : 0 < acc.late := lt_of_lt_of_le (Nat.succ_pos _) hle
        have hstep : lrmd_dispatch_msg acc m = { acc with late := acc.late - 1 } := by
          simp [lrmd_dispatch_msg, hn, hr, hpos]
        rw [List.foldl_cons, hstep]
        exact ih _ (by simpa using Nat.le_sub_one_of_lt (lt_of_lt_of_le (Nat.lt_succ_self _) hle))
      · have hr' : strCaseEq m.msg_type "reply" = false := by
          simpa using hr
        rw [List.filter_cons_of_neg (by simpa using hr')] at hle
        have hstep : lrmd_dispatch_msg acc m = acc := by
          by_cases hn : strCaseEq m.msg_type "notify" = true
          · simp [lrmd_dispatch_msg, hn]
          · simp [lrmd_dispatch_msg, hr', by simpa using hn]
        rw [List.foldl_cons, hstep]
        exact ih _ hle

/-- Claim C6: on the TLS transport a successfully sent fire-and-forget
request increments `expected_late_replies`; a received reply not matching
an awaited request is absorbed silently (counter decremented, nothing
logged) while the counter is positive, and the outdated-reply error is
logged only when the counter is zero — both in the dispatch loop and in
the awaited-reply path; consequently a dispatch run seeing no more replies
than the counter logs no error at all. -/
theorem tls_late_replies_accounting
    (st : LrmdClient) (acc : DispatchAcc) (m : RemoteMsg) (late : Nat)
    (msgs : List RemoteMsg)
    (hty : st.ty = LrmdClientType.tls)
    (hreply : strCaseEq m.msg_type "reply" = true) :
    ((lrmd_send_xml_no_reply st true).expected_late_replies
        = st.expected_late_replies + 1)
    ∧ (acc.late > 0 → lrmd_dispatch_msg acc m = { acc with late := acc.late - 1 })
    ∧ (acc.late = 0 → lrmd_dispatch_msg acc m =
        { acc with outdated_logged := acc.outdated_logged ++ [m.call_id] })
    ∧ (late > 0 → lrmd_recv_reply_mismatch late = (late - 1, false))
    ∧ (late = 0 → lrmd_recv_reply_mismatch late = (late, true))
    ∧ ((msgs.filter (fun mm => strCaseEq mm.msg_type "reply")).length ≤ late →
        (lrmd_tls_dispatch_msgs late msgs).outdated_logged = []) := by
  have hn := reply_is_not_notify m hreply
  refine ⟨?_, ?_, ?_, ?_, ?_, ?_⟩
  · simp [lrmd_send_xml_no_reply, hty]
  · intro hpos; simp [lrmd_dispatch_msg, hn, hreply, hpos]
  · intro hz; simp [lrmd_dispatch_msg, hn, hreply, hz]
  · intro hpos; simp [lrmd_recv_reply_mismatch, hpos]
  · intro hz; simp [lrmd_recv_reply_mismatch, hz]
  · intro hle; exact dispatch_foldl_no_logs msgs _ hle

/-- Witness for `tls_late_replies_accounting`: scenario S4 — one
fire-and-forget request, then one late reply absorbed with nothing
logged. -/
theorem tls_late_replies_accounting_witness :
    ((lrmd_send_xml_no_reply ⟨LrmdClientType.tls, true, 0⟩ true).expected_late_replies
        = 0 + 1)
    ∧ ((1 : Nat) > 0 →
        lrmd_dispatch_msg ⟨1, []⟩ ⟨"reply", 17⟩ = { late := 0, outdated_logged := [] })
    ∧ (((([⟨"reply", 17⟩] : List RemoteMsg).filter
          (fun mm => strCaseEq mm.msg_type "reply")).length ≤ 1) →
        (lrmd_tls_dispatch_msgs 1 [⟨"reply", 17⟩]).outdated_logged = []) := by
  have h := tls_late_replies_accounting ⟨LrmdClientType.tls, true, 0⟩ ⟨1, []⟩
    ⟨"reply", 17⟩ 1 [⟨"reply", 17⟩] rfl (by decide)
  exact ⟨h.1, fun hp => h.2.1 hp, fun hl => h.2.2.2.2.2 hl⟩

/-- Claim C2 (code evaluated at the failing input): `sort_device_priority`
initialises both compared pointers from its first argument, so it returns
0 on every pair; consequently `stonith_fence` leaves the capable list in
its original order — here a priority-1 device stays ahead of a priority-2
device, which the descending-priority ordering would forbid. -/
theorem capable_devices_not_sorted_by_priority :
    (∀ a b : StonithDevice, sort_device_priority a b = 0)
    ∧ stonith_fence_device_order
        [⟨"D1", "fence_a", 1, [], some "none", false, [], 0⟩,
         ⟨"D2", "fence_a", 2, [], some "none", false, [], 0⟩]
      = some (⟨"D1", "fence_a", 1, [], some "none", false, [], 0⟩,
          [⟨"D1", "fence_a", 1, [], some "none", false, [], 0⟩,
           ⟨"D2", "fence_a", 2, [], some "none", false, [], 0⟩])
    ∧ ((⟨"D1", "fence_a", 1, [], some "none", false, [], 0⟩ : StonithDevice).priority
        < (⟨"D2", "fence_a", 2, [], some "none", false, [], 0⟩ : StonithDevice).priority) := by
  refine ⟨fun a b => ?_, by decide, by decide⟩
  simp [sort_device_priority]

/-- Claim C4: under the `dynamic-list` host-check policy the target (or
its alias) must appear in the cached list output to be fenceable; a cache
that is absent or older than 60 seconds triggers the agent's `list`
action, whose failure permanently disables dynamic-list queries for the
device — from the disabled state every later check answers no, runs no
agent, and leaves the device unchanged. -/
theorem dynamic_list_host_check
    (dev : StonithDevice) (h : String) (now : Int) (lr sr : AgentRun)
    (hct : dev.hostcheck = some "dynamic-list") :
    (dev.targets_age ≥ 0 → dev.targets.isEmpty = false →
      ¬(dev.targets_age + 60 < now) →
      can_fence_host_with_device dev (some h) now lr sr =
        ⟨string_in_list dev.targets ((dev.aliases.lookup h).getD h), dev,
         false, false⟩)
    ∧ (dev.targets_age ≥ 0 →
      (dev.targets.isEmpty = true ∨ dev.targets_age + 60 < now) →
      (lr.exec_rc < 0 ∨ lr.rc ≠ 0) →
      can_fence_host_with_device dev (some h) now lr sr =
        ⟨false, { dev with targets := [], targets_age := -1 }, true, false⟩)
    ∧ (dev.targets_age ≥ 0 →
      (dev.targets.isEmpty = true ∨ dev.targets_age + 60 < now) →
      ¬(lr.exec_rc < 0 ∨ lr.rc ≠ 0) →
      can_fence_host_with_device dev (some h) now lr sr =
        ⟨string_in_list lr.output_hosts ((dev.aliases.lookup h).getD h),
         { dev with targets := lr.output_hosts, targets_age := now },
         true, false⟩)
    ∧ (dev.targets_age < 0 → dev.targets = [] →
      can_fence_host_with_device dev (some h) now lr sr =
        ⟨false, dev, false, false⟩) := by
  have e1 : strCaseEq "dynamic-list" "none" = false := by decide
  have e2 : strCaseEq "dynamic-list" "static-list" = false := by decide
  have e3 : strCaseEq "dynamic-list" "dynamic-list" = true := by decide
  refine ⟨?_, ?_, ?_, ?_⟩
  · intro h0 h1 h2
    simp only [can_fence_host_with_device, hct, e1, e2, e3, Bool.false_eq_true,
      if_false, if_true]
    rw [if_neg (by omega), if_neg (by simp [h1, h2])]
  · intro h0 h1 h2
    simp only [can_fence_host_with_device, hct, e1, e2, e3, Bool.false_eq_true,
      if_false, if_true]
    rw [if_neg (by omega), if_pos (by rcases h1 with h1 | h1 <;> simp [h1]),
      if_pos h2]
    rfl
  · intro h0 h1 h2
    simp only [can_fence_host_with_device, hct, e1, e2, e3, Bool.false_eq_true,
      if_false, if_true]
    rw [if_neg (by omega), if_pos (by rcases h1 with h1 | h1 <;> simp [h1]),
      if_neg h2]
  · intro h0 h1
    simp only [can_fence_host_with_device, hct, e1, e2, e3, Bool.false_eq_true,
      if_false, if_true]
    rw [if_pos h0, h1]
    rfl

/-- Witness for `dynamic_list_host_check`: a device with no cached list
whose `list` action fails, reaching the permanently disabled state. -/
theorem dynamic_list_host_check_witness :
    (((0 : Int) ≥ 0) ∧ ([] : List String).isEmpty = true ∧
      ((-1 : Int) < 0 ∨ (1 : Int) ≠ 0))
    ∧ can_fence_host_with_device
        ⟨"F1", "fence_x", 0, [], some "dynamic-list", false, [], 0⟩
        (some "node2") 1000 ⟨-1, 1, []⟩ ⟨0, 0, []⟩
      = ⟨false, ⟨"F1", "fence_x", 0, [], some "dynamic-list", false, [], -1⟩,
         true, false⟩ := by
  refine ⟨⟨by decide, by decide, by decide⟩, ?_⟩
  exact (dynamic_list_host_check
      ⟨"F1", "fence_x", 0, [], some "dynamic-list", false, [], 0⟩
      "node2" 1000 ⟨-1, 1, []⟩ ⟨0, 0, []⟩ rfl).2.1
    (by decide) (Or.inl rfl) (Or.inl (by decide))

/-- Looking a key up past a prefix that cannot contain it. -/
theorem lookup_append_of_no_key (l1 l2 : List (String × String)) (k : String)
    (h : ∀ kv ∈ l1, kv.1 ≠ k) : (l1 ++ l2).lookup k = l2.lookup k := by
  induction l1 with
  | nil => rfl
  | cons kv rest ih =>
      obtain ⟨k1, v1⟩ := kv
      have hne : (k == k1) = false :=
        beq_eq_false_iff_ne.mpr (fun he => (h (k1, v1) (by simp)) he.symm)
      simp only [List.cons_append, List.lookup, hne]
      exact ih (fun x hx => h x (by simp [hx]))

/-- A task that is (case-insensitively) start, reload or monitor is not a
notify. -/
theorem start_reload_monitor_not_notify (s : String)
    (h : strCaseAnyOf s [CRMD_ACTION_START, "reload", RSC_STATUS] = true) :
    strCaseEq s RSC_NOTIFY = false := by
  unfold strCaseAnyOf at h
  simp only [List.any_cons, List.any_nil, Bool.or_false, Bool.or_eq_true] at h
  unfold strCaseEq at h ⊢
  rw [beq_eq_false_iff_ne]
  rcases h with h | h | h <;> rw [beq_iff_eq] at h <;> rw [h] <;> decide

/-- Claim C1: a stop constructed for a resource with cached `stop_params`
takes every instance (non-meta) parameter from the cache, not from the
request; `stop_params` is (re)captured from the instance-scoped parameters
whenever a non-recurring start, reload or monitor succeeds; and with no
cached `stop_params` the request's parameters are used as given. -/
theorem stop_uses_cached_stop_params
    (operation : String) (params sp ps : List (String × String))
    (e : RscHistory) (k : String)
    (cache : List (String × RscHistory)) (rsc : Option LrmdRscInfo)
    (op : LrmdEvent) :
    (strCaseEq operation RSC_STOP = true → e.stop_params = some sp →
      containsSub (CRM_META ++ "_").data k.data = false →
      (construct_op_params operation params (some e)).lookup k
        = (copy_instance_keys sp).lookup k)
    ∧ (op.rsc_deleted = false →
      strCaseAnyOf op.op_type [CRMD_ACTION_START, "reload", RSC_STATUS] = true →
      (op.op_status == PCMK_LRM_OP_CANCELLED) = false →
      op.rc = op.target_rc → op.interval_ms = 0 → op.params = some ps →
      ((cache.lookup op.rsc_id).isSome = true ∨ rsc.isSome = true) →
      ∃ e', (update_history_cache cache rsc op).1.lookup op.rsc_id = some e'
        ∧ e'.stop_params = some (copy_instance_keys ps))
    ∧ (construct_op_params operation params none = params)
    ∧ (e.stop_params = none → construct_op_params operation params (some e) = params) := by
  refine ⟨?_, ?_, ?_, ?_⟩
  · intro hstop hsp hk
    unfold construct_op_params
    rw [hstop]
    simp only [Bool.not_true, Bool.false_eq_true, if_false, hsp]
    refine lookup_append_of_no_key _ _ _ ?_
    intro kv hkv he
    have := List.of_mem_filter hkv
    rw [he, hk] at this
    exact Bool.false_ne_true this
  · intro hdel htask hstat hrc hint hps hentry
    have hnot := start_reload_monitor_not_notify op.op_type htask
    have he0 : ∃ e0 : RscHistory, history_entry_for cache rsc op.rsc_id = some e0 := by
      unfold history_entry_for
      rcases hentry with hentry | hentry
      · obtain ⟨e1, hl⟩ := Option.isSome_iff_exists.mp hentry
        rw [hl]
        exact ⟨e1, rfl⟩
      · obtain ⟨info, hr⟩ := Option.isSome_iff_exists.mp hentry
        cases hl : cache.lookup op.rsc_id with
        | some e1 => exact ⟨e1, rfl⟩
        | none => rw [hr]; exact ⟨freshHistory info, rfl⟩
    obtain ⟨e0, he0⟩ := he0
    simp only [update_history_cache, he0, hdel, hnot,
      Bool.false_eq_true, if_false]
    refine ⟨updated_history_entry e0 op, by simp [cacheStore, List.lookup], ?_⟩
    simp only [updated_history_entry, hstat, Bool.false_and, did_rsc_op_fail,
      rsc_op_expected_rc, hrc, bne_self_eq_false, hint, hps, htask,
      Bool.false_eq_true, if_false, beq_self_eq_true, if_true,
      lt_self_iff_false, gt_iff_lt]
    split <;> rfl
  · unfold construct_op_params
    split
    · rfl
    · rfl
  · intro hsp
    unfold construct_op_params
    split
    · rfl
    · simp [hsp]

/-- Witness for `stop_uses_cached_stop_params`: scenario S5 — the
resource was started with `port=3306`, the configuration now says
`port=3307`, and the constructed stop still looks up `port=3306`. -/
theorem stop_uses_cached_stop_params_witness :
    (strCaseEq "stop" RSC_STOP = true
      ∧ containsSub (CRM_META ++ "_").data "port".data = false)
    ∧ (construct_op_params "stop"
          [("CRM_meta_timeout", "60000"), ("port", "3307")]
          (some { rsc := ⟨"ocf", some "heartbeat", "Dummy"⟩, last := none,
                  failed := none, recurring_op_list := [],
                  stop_params := some [("port", "3306")], last_callid := 5 })).lookup "port"
        = (copy_instance_keys [("port", "3306")]).lookup "port"
    ∧ (∃ e', (update_history_cache [] (some ⟨"ocf", some "heartbeat", "Dummy"⟩)
          { rsc_id := "R1", op_type := "start", interval_ms := 0, call_id := 7,
            op_status := 0, rc := 0, target_rc := 0, rsc_deleted := false,
            params := some [("port", "3306"), ("CRM_meta_timeout", "60000")] }).1.lookup "R1"
          = some e'
        ∧ e'.stop_params
          = some (copy_instance_keys [("port", "3306"), ("CRM_meta_timeout", "60000")])) := by
  have h := stop_uses_cached_stop_params "stop"
    [("CRM_meta_timeout", "60000"), ("port", "3307")] [("port", "3306")]
    [("port", "3306"), ("CRM_meta_timeout", "60000")]
    { rsc := ⟨"ocf", some "heartbeat", "Dummy"⟩, last := none, failed := none,
      recurring_op_list := [], stop_params := some [("port", "3306")],
      last_callid := 5 }
    "port" [] (some ⟨"ocf", some "heartbeat", "Dummy"⟩)
    { rsc_id := "R1", op_type := "start", interval_ms := 0, call_id := 7,
      op_status := 0, rc := 0, target_rc := 0, rsc_deleted := false,
      params := some [("port", "3306"), ("CRM_meta_timeout", "60000")] }
  exact ⟨⟨by decide, by decide⟩,
    h.1 (by decide) rfl (by decide),
    h.2.1 rfl (by decide) (by decide) rfl rfl rfl (Or.inr rfl)⟩

/-- `history_remove_recurring_op` deletes a sublist position. -/
theorem remove_recurring_sublist (l : List LrmdEvent) (op : LrmdEvent) :
    List.Sublist (history_remove_recurring_op l op) l := by
  induction l with
  | nil => simp [history_remove_recurring_op]
  | cons e rest ih =>
      unfold history_remove_recurring_op
      split
      · exact List.sublist_cons_self e rest
      · exact ih.cons₂ e

/-- The removal test agrees with equality of deduplication keys. -/
theorem recurring_op_matches_iff (op e : LrmdEvent) :
    recurring_op_matches op e = true ↔ histKey op = histKey e := by
  unfold recurring_op_matches histKey strCaseEq
  simp only [Bool.and_eq_true, beq_iff_eq, Prod.ext_iff]
  tauto

/-- On a deduplicated list, removal leaves no entry with `op`'s key. -/
theorem histKey_not_mem_remove (l : List LrmdEvent) (op : LrmdEvent)
    (h : (l.map histKey).Nodup) :
    histKey op ∉ (history_remove_recurring_op l op).map histKey := by
  induction l with
  | nil => simp [history_remove_recurring_op]
  | cons e rest ih =>
      rw [List.map_cons, List.nodup_cons] at h
      unfold history_remove_recurring_op
      split
      case isTrue hm =>
        rw [(recurring_op_matches_iff op e).mp hm]
        exact h.1
      case isFalse hm =>
        rw [List.map_cons, List.mem_cons]
        push_neg
        exact ⟨fun hke => hm ((recurring_op_matches_iff op e).mpr hke), ih h.2⟩

/-- Remove-then-prepend preserves deduplication, and so does removal
alone. -/
theorem recurring_unique_after_add (l : List LrmdEvent) (op : LrmdEvent)
    (h : recurringUnique l) :
    recurringUnique (op :: history_remove_recurring_op l op)
    ∧ recurringUnique (history_remove_recurring_op l op) := by
  have hsub : recurringUnique (history_remove_recurring_op l op) :=
    h.sublist ((remove_recurring_sublist l op).map histKey)
  refine ⟨?_, hsub⟩
  rw [recurringUnique, List.map_cons, List.nodup_cons]
  exact ⟨histKey_not_mem_remove l op h, hsub⟩

/-- A lookup hit is a member of the association list. -/
theorem mem_of_lookup_eq_some :
    ∀ {l : List (String × RscHistory)} {k : String} {v : RscHistory},
      l.lookup k = some v → (k, v) ∈ l := by
  intro l
  induction l with
  | nil => intro k v h; simp [List.lookup] at h
  | cons kv rest ih =>
      intro k v h
      obtain ⟨k1, v1⟩ := kv
      simp only [List.lookup] at h
      by_cases hb : (k == k1) = true
      · rw [hb] at h
        cases h
        have : k = k1 := by simpa using hb
        subst this
        exact List.mem_cons_self _ _
      · rw [Bool.not_eq_true] at hb
        rw [hb] at h
        exact List.mem_cons_of_mem _ (ih h)

/-- The recurring list of an updated entry is the old one, the old one
with `op`'s key removed, that with `op` prepended, or empty. -/
theorem updated_entry_recurring_cases (e0 : RscHistory) (op : LrmdEvent) :
    (updated_history_entry e0 op).recurring_op_list = e0.recurring_op_list
    ∨ (updated_history_entry e0 op).recurring_op_list
        = history_remove_recurring_op e0.recurring_op_list op
    ∨ (updated_history_entry e0 op).recurring_op_list
        = op :: history_remove_recurring_op e0.recurring_op_list op
    ∨ (updated_history_entry e0 op).recurring_op_list = [] := by
  simp only [updated_history_entry]
  split
  · exact Or.inr (Or.inl rfl)
  · repeat' split
    all_goals
      first
        | exact Or.inl rfl
        | exact Or.inr (Or.inl rfl)
        | exact Or.inr (Or.inr (Or.inl rfl))
        | exact Or.inr (Or.inr (Or.inr rfl))

/-- Updating an entry preserves recurring-list deduplication. -/
theorem updated_entry_unique (e0 : RscHistory) (op : LrmdEvent)
    (h : recurringUnique e0.recurring_op_list) :
    recurringUnique (updated_history_entry e0 op).recurring_op_list := by
  rcases updated_entry_recurring_cases e0 op with hc | hc | hc | hc <;> rw [hc]
  · exact h
  · exact (recurring_unique_after_add _ op h).2
  · exact (recurring_unique_after_add _ op h).1
  · simp [recurringUnique]

/-- Claim C7: recording an operation result removes any recurring entry
with the same (resource id, task, interval) before adding the new one, so
if every history entry's recurring list is deduplicated by that triple,
this still holds after any `update_history_cache`. -/
theorem recurring_ops_unique_per_triple (cache : List (String × RscHistory))
    (rsc : Option LrmdRscInfo) (op : LrmdEvent)
    (hinv : ∀ kv ∈ cache, recurringUnique kv.2.recurring_op_list) :
    ∀ kv ∈ (update_history_cache cache rsc op).1,
      recurringUnique kv.2.recurring_op_list := by
  intro kv hkv
  unfold update_history_cache at hkv
  split at hkv
  · exact hinv kv hkv
  · split at hkv
    · exact hinv kv hkv
    · cases he : history_entry_for cache rsc op.rsc_id with
      | none => rw [he] at hkv; exact hinv kv hkv
      | some e0 =>
          rw [he] at hkv
          have he0u : recurringUnique e0.recurring_op_list := by
            unfold history_entry_for at he
            cases hl : cache.lookup op.rsc_id with
            | some e1 =>
                rw [hl] at he
                cases he
                exact hinv (op.rsc_id, e0) (mem_of_lookup_eq_some hl)
            | none =>
                rw [hl] at he
                cases hr : rsc with
                | some info =>
                    rw [hr] at he
                    cases he
                    simp [freshHistory, recurringUnique]
                | none => rw [hr] at he; cases he
          simp only [cacheStore] at hkv
          rcases List.mem_cons.mp hkv with heq | hmem
          · rw [heq]
            exact updated_entry_unique e0 op he0u
          · exact hinv kv (List.mem_of_mem_filter hmem)

/-- Witness for `recurring_ops_unique_per_triple`: a second monitor result
replaces the existing recurring entry rather than duplicating it. -/
theorem recurring_ops_unique_per_triple_witness :
    ((∀ kv ∈ ([] : List (String × RscHistory)), recurringUnique kv.2.recurring_op_list)
      ∧ ∀ kv ∈ (update_history_cache [] (some ⟨"ocf", some "heartbeat", "Dummy"⟩)
          { rsc_id := "R1", op_type := "monitor", interval_ms := 10000, call_id := 9,
            op_status := 0, rc := 0, target_rc := 0, rsc_deleted := false,
            params := none }).1,
        recurringUnique kv.2.recurring_op_list) :=
  ⟨fun kv hkv => absurd hkv (List.not_mem_nil kv),
   recurring_ops_unique_per_triple [] (some ⟨"ocf", some "heartbeat", "Dummy"⟩)
     { rsc_id := "R1", op_type := "monitor", interval_ms := 10000, call_id := 9,
       op_status := 0, rc := 0, target_rc := 0, rsc_deleted := false,
       params := none }
     (fun kv hkv => absurd hkv (List.not_mem_nil kv))⟩

/-- An unconfirmed synapse keeps its action list, with every
incompletable stonith action marked failed. -/
theorem fail_synapse_actions_actions (s : Synapse) (h : s.confirmed = false) :
    (fail_synapse_actions s).actions = s.actions.map (fun a =>
      if is_incompletable_stonith a then { a with failed := true } else a) := by
  unfold fail_synapse_actions
  rw [if_neg (by simp [h])]
  split <;> rfl

/-- Claim C3: when the fencing daemon's connection is destroyed on the DC
while the current graph holds unconfirmed fencing actions, every
unconfirmed fencing action of an unconfirmed synapse is marked failed and
the transition is aborted with priority `INFINITY` and action
`tg_restart` (and graph processing is re-triggered). -/
theorem stonith_disconnect_fails_pending_fencing
    (g : CrmGraph) (s : Synapse) (a : CrmAction)
    (hs : s ∈ g.synapses) (hsc : s.confirmed = false)
    (ha : a ∈ s.actions) (hfa : is_incompletable_stonith a = true) :
    ∃ g', (tengine_stonith_connection_destroy true (some g)).graph = some g'
      ∧ (∃ s' ∈ g'.synapses, ({ a with failed := true } : CrmAction) ∈ s'.actions)
      ∧ (tengine_stonith_connection_destroy true (some g)).abort
          = some ⟨INFINITY, TransitionAction.tg_restart⟩
      ∧ (tengine_stonith_connection_destroy true (some g)).triggered = true := by
  have hfound : (g.synapses.any fun s =>
      !s.confirmed && s.actions.any is_incompletable_stonith) = true := by
    rw [List.any_eq_true]
    exact ⟨s, hs, by
      rw [Bool.and_eq_true, List.any_eq_true]
      exact ⟨by simp [hsc], a, ha, hfa⟩⟩
  refine ⟨(fail_incompletable_stonith g).1, ?_, ?_, ?_, ?_⟩
  · simp [tengine_stonith_connection_destroy]
  · refine ⟨fail_synapse_actions s, ?_, ?_⟩
    · exact List.mem_map_of_mem fail_synapse_actions hs
    · rw [fail_synapse_actions_actions s hsc]
      refine List.mem_map.mpr ⟨a, ha, ?_⟩
      rw [if_pos hfa]
  · simp [tengine_stonith_connection_destroy, fail_incompletable_stonith, hfound]
  · simp [tengine_stonith_connection_destroy]

/-- Witness for `stonith_disconnect_fails_pending_fencing`: a one-synapse
graph holding a single unconfirmed fencing action. -/
theorem stonith_disconnect_fails_pending_fencing_witness :
    ((⟨false, false, false, [⟨4, ActionType.crm, some "stonith", false, false⟩]⟩ : Synapse)
        ∈ (⟨[⟨false, false, false, [⟨4, ActionType.crm, some "stonith", false, false⟩]⟩],
            false, 0, TransitionAction.tg_done⟩ : CrmGraph).synapses)
    ∧ ∃ g', (tengine_stonith_connection_destroy true
        (some ⟨[⟨false, false, false,
                 [⟨4, ActionType.crm, some "stonith", false, false⟩]⟩],
               false, 0, TransitionAction.tg_done⟩)).graph = some g'
      ∧ (∃ s' ∈ g'.synapses,
          ({ id := 4, ty := ActionType.crm, task := some "stonith",
             confirmed := false, failed := true } : CrmAction) ∈ s'.actions)
      ∧ (tengine_stonith_connection_destroy true
          (some ⟨[⟨false, false, false,
                   [⟨4, ActionType.crm, some "stonith", false, false⟩]⟩],
                 false, 0, TransitionAction.tg_done⟩)).abort
          = some ⟨INFINITY, TransitionAction.tg_restart⟩
      ∧ (tengine_stonith_connection_destroy true
          (some ⟨[⟨false, false, false,
                   [⟨4, ActionType.crm, some "stonith", false, false⟩]⟩],
                 false, 0, TransitionAction.tg_done⟩)).triggered = true :=
  ⟨List.mem_cons_self _ _,
   stonith_disconnect_fails_pending_fencing
     ⟨[⟨false, false, false, [⟨4, ActionType.crm, some "stonith", false, false⟩]⟩],
      false, 0, TransitionAction.tg_done⟩
     ⟨false, false, false, [⟨4, ActionType.crm, some "stonith", false, false⟩]⟩
     ⟨4, ActionType.crm, some "stonith", false, false⟩
     (List.mem_cons_self _ _) rfl (List.mem_cons_self _ _) (by decide)⟩

/-- An ordinary character is accumulated. -/
theorem bpaChar_ordinary (st : BpaState) (c : Char) (h : bpaOrdinary c) :
    bpaChar st c = { st with acc := st.acc ++ [c] } := by
  obtain ⟨h1, h2, h3, h4, h5, h6⟩ := h
  unfold bpaChar
  rw [if_neg (by tauto), if_neg (by tauto)]

/-- A run of ordinary characters only extends the accumulator. -/
theorem bpaRun_ordinary (cs : List Char) :
    ∀ st : BpaState, (∀ c ∈ cs, bpaOrdinary c) →
      cs.foldl bpaChar st = { st with acc := st.acc ++ cs } := by
  induction cs with
  | nil => intro st _; simp
  | cons c rest ih =>
      intro st h
      rw [List.foldl_cons, bpaChar_ordinary st c (h c (by simp))]
      rw [ih _ (fun x hx => h x (by simp [hx]))]
      simp

/-- A delimiter with a pending name closes the entry. -/
theorem bpaChar_delim_some (acc n : List Char) (A : List (String × String))
    (d : Char) (hd : d = '\x00' ∨ d = ';' ∨ d = ' ' ∨ d = '\t') :
    bpaChar ⟨acc, some n, A⟩ d
      = ⟨[], none, hashReplace A (String.mk n) (String.mk acc)⟩ := by
  have hne : ¬(d = '=' ∨ d = ':') := by
    rcases hd with h | h | h | h <;> subst h <;> decide
  unfold bpaChar
  rw [if_neg hne, if_pos hd]

/-- A delimiter with no pending name only discards the accumulator. -/
theorem bpaChar_delim_none (acc : List Char) (A : List (String × String))
    (d : Char) (hd : d = '\x00' ∨ d = ';' ∨ d = ' ' ∨ d = '\t') :
    bpaChar ⟨acc, none, A⟩ d = ⟨[], none, A⟩ := by
  have hne : ¬(d = '=' ∨ d = ':') := by
    rcases hd with h | h | h | h <;> subst h <;> decide
  unfold bpaChar
  rw [if_neg hne, if_pos hd]

/-- Scanning one well-formed `NAME=VALUE` entry followed by a delimiter
records exactly that alias. -/
theorem bpa_pair_step (n v : List Char) (A : List (String × String)) (d : Char)
    (hn : n ≠ []) (hno : ∀ c ∈ n, bpaOrdinary c) (hvo : ∀ c ∈ v, bpaOrdinary c)
    (hd : d = '\x00' ∨ d = ';' ∨ d = ' ' ∨ d = '\t') :
    (n ++ '=' :: (v ++ [d])).foldl bpaChar ⟨[], none, A⟩
      = ⟨[], none, hashReplace A (String.mk n) (String.mk v)⟩ := by
  rw [List.foldl_append, bpaRun_ordinary n _ hno]
  have h1 : bpaChar ⟨([] : List Char) ++ n, none, A⟩ '=' = ⟨[], some n, A⟩ := by
    unfold bpaChar
    rw [if_pos (Or.inl rfl)]
    simp [hn]
  rw [List.foldl_cons]
  rw [show ({ acc := [], name := none, aliases := A } : BpaState)
      = (⟨[], none, A⟩ : BpaState) from rfl] at *
  rw [h1, List.foldl_append, bpaRun_ordinary v _ hvo]
  simp only [List.foldl_cons, List.foldl_nil]
  rw [show (⟨([] : List Char) ++ v, some n, A⟩ : BpaState)
      = (⟨v, some n, A⟩ : BpaState) by simp]
  exact bpaChar_delim_some v n A d hd

/-- Replacing a key absent from the table appends the binding. -/
theorem hashReplace_fresh (A : List (String × String)) (k v : String)
    (h : ∀ kv ∈ A, kv.1 ≠ k) : hashReplace A k v = A ++ [(k, v)] := by
  unfold hashReplace
  rw [List.filter_eq_self.mpr]
  intro kv hkv
  simp [h kv hkv]

/-- Scanning a whole well-formed host map appends every pair, in order,
to the aliases accumulated so far. -/
theorem bpa_run_pairs (sep : Char) (hsep : sep = ' ' ∨ sep = '\t' ∨ sep = ';') :
    ∀ (pairs : List (List Char × List Char)) (A : List (String × String)),
      (∀ p ∈ pairs, p.1 ≠ [] ∧ (∀ c ∈ p.1, bpaOrdinary c) ∧ (∀ c ∈ p.2, bpaOrdinary c)) →
      (pairs.map fun p => String.mk p.1).Nodup →
      (∀ kv ∈ A, ∀ p ∈ pairs, kv.1 ≠ String.mk p.1) →
      ((formatHostmap sep pairs ++ ['\x00']).foldl bpaChar ⟨[], none, A⟩).aliases
        = A ++ pairs.map (fun p => (String.mk p.1, String.mk p.2)) := by
  have hsd : sep = '\x00' ∨ sep = ';' ∨ sep = ' ' ∨ sep = '\t' := by tauto
  intro pairs
  induction pairs with
  | nil =>
      intro A hv hnd hfresh
      simp only [formatHostmap, List.nil_append, List.map_nil, List.append_nil]
      rw [show (['\x00'] : List Char).foldl bpaChar ⟨[], none, A⟩
          = bpaChar ⟨[], none, A⟩ '\x00' from rfl]
      rw [bpaChar_delim_none [] A '\x00' (Or.inl rfl)]
  | cons p rest ih =>
      intro A hv hnd hfresh
      obtain ⟨hn, hno, hvo⟩ := hv p (by simp)
      cases rest with
      | nil =>
          have hstream : formatHostmap sep [p] ++ ['\x00']
              = p.1 ++ '=' :: (p.2 ++ ['\x00']) := by
            simp [formatHostmap, formatPair]
          rw [hstream, bpa_pair_step p.1 p.2 A '\x00' hn hno hvo (Or.inl rfl)]
          rw [show (⟨[], none, hashReplace A (String.mk p.1) (String.mk p.2)⟩
              : BpaState).aliases
              = hashReplace A (String.mk p.1) (String.mk p.2) from rfl]
          rw [hashReplace_fresh _ _ _ (fun kv hkv => hfresh kv hkv p (by simp))]
          simp
      | cons q rest' =>
          have hstream : formatHostmap sep (p :: q :: rest') ++ ['\x00']
              = (p.1 ++ '=' :: (p.2 ++ [sep]))
                ++ (formatHostmap sep (q :: rest') ++ ['\x00']) := by
            simp [formatHostmap, formatPair]
          rw [hstream, List.foldl_append]
          rw [bpa_pair_step p.1 p.2 A sep hn hno hvo hsd]
          rw [hashReplace_fresh _ _ _ (fun kv hkv => hfresh kv hkv p (by simp))]
          rw [ih (A ++ [(String.mk p.1, String.mk p.2)])
            (fun x hx => hv x (by simp [hx]))
            (by rw [List.map_cons, List.nodup_cons] at hnd; exact hnd.2)
            ?_]
          · simp
          · intro kv hkv p' hp'
            rcases List.mem_append.mp hkv with hin | hin
            · exact hfresh kv hin p' (by simp [hp'])
            · have hkv1 : kv = (String.mk p.1, String.mk p.2) := by simpa using hin
              rw [hkv1]
              rw [List.map_cons, List.nodup_cons] at hnd
              intro hcontra
              have hc2 : String.mk p.1 = String.mk p'.1 := hcontra
              apply hnd.1
              rw [hc2]
              exact List.mem_map_of_mem (fun p => String.mk p.1) hp'

/-- Dropping one trailing whitespace character before the terminator does
not change the parsed aliases. -/
theorem bpa_trailing_ws_step (st : BpaState) (w : Char)
    (hw : w = ' ' ∨ w = '\t') :
    (bpaChar (bpaChar st w) '\x00').aliases = (bpaChar st '\x00').aliases := by
  have hwd : w = '\x00' ∨ w = ';' ∨ w = ' ' ∨ w = '\t' := by tauto
  obtain ⟨acc, nm, A⟩ := st
  cases nm with
  | some n =>
      rw [bpaChar_delim_some acc n A w hwd,
        bpaChar_delim_some acc n A '\x00' (Or.inl rfl),
        bpaChar_delim_none [] (hashReplace A (String.mk n) (String.mk acc))
          '\x00' (Or.inl rfl)]
  | none =>
      rw [bpaChar_delim_none acc A w hwd,
        bpaChar_delim_none acc A '\x00' (Or.inl rfl),
        bpaChar_delim_none [] A '\x00' (Or.inl rfl)]

/-- Counterexample to claim C9 as stated: a comma does not separate
host-map entries (its delimiter case is commented out in the source), so
`"a=b,c=d"` parses to the single alias `"b,c" → "d"` — under the claimed
grammar it would contain the name `"a"`. -/
theorem host_map_comma_not_separator :
    build_port_aliases "a=b,c=d" = [("b,c", "d")]
    ∧ (build_port_aliases "a=b,c=d").lookup "a" = none := by
  constructor <;> decide

/-- Claim C9 (amended): the host map is parsed as `NAME(=|:)VALUE` pairs
with entries separated by whitespace or semicolon (a comma does not
separate entries); a name token not followed by an assignment contributes
no alias; trailing whitespace is tolerated. -/
theorem host_map_grammar_amended
    (pairs : List (List Char × List Char)) (sep : Char) (t : List Char)
    (s : String) (w : Char)
    (hsep : sep = ' ' ∨ sep = '\t' ∨ sep = ';')
    (hvalid : ∀ p ∈ pairs, p.1 ≠ [] ∧ (∀ c ∈ p.1, bpaOrdinary c)
      ∧ (∀ c ∈ p.2, bpaOrdinary c))
    (hnodup : (pairs.map fun p => String.mk p.1).Nodup)
    (ht : ∀ c ∈ t, bpaOrdinary c)
    (hw : w = ' ' ∨ w = '\t') :
    build_port_aliases (String.mk (formatHostmap sep pairs))
        = pairs.map (fun p => (String.mk p.1, String.mk p.2))
    ∧ build_port_aliases (String.mk t) = []
    ∧ build_port_aliases (s ++ String.mk [w]) = build_port_aliases s := by
  refine ⟨?_, ?_, ?_⟩
  · have := bpa_run_pairs sep hsep pairs [] hvalid hnodup (by simp)
    simpa [build_port_aliases] using this
  · show ((t ++ ['\x00']).foldl bpaChar ⟨[], none, []⟩).aliases = []
    rw [List.foldl_append, bpaRun_ordinary t _ ht]
    rw [show (⟨([] : List Char) ++ t, none, []⟩ : BpaState)
        = (⟨t, none, []⟩ : BpaState) by simp]
    rw [show (['\x00'] : List Char).foldl bpaChar ⟨t, none, []⟩
        = bpaChar ⟨t, none, []⟩ '\x00' from rfl]
    rw [bpaChar_delim_none t [] '\x00' (Or.inl rfl)]
  · obtain ⟨cs⟩ := s
    show ((cs ++ [w] ++ ['\x00']).foldl bpaChar ⟨[], none, []⟩).aliases
      = ((cs ++ ['\x00']).foldl bpaChar ⟨[], none, []⟩).aliases
    rw [List.foldl_append, List.foldl_append, List.foldl_append]
    simp only [List.foldl_cons, List.foldl_nil]
    exact bpa_trailing_ws_step _ w hw

/-- Witness for `host_map_grammar_amended`: `"node1=p1;node2=p,2"` (note
the comma inside a value) parses to its two aliases; `"orphan"` yields
none; `"a=b "` parses like `"a=b"`. -/
theorem host_map_grammar_amended_witness :
    build_port_aliases (String.mk (formatHostmap ';'
        [("node1".data, "p1".data), ("node2".data, "p,2".data)]))
      = [("node1", "p1"), ("node2", "p,2")]
    ∧ build_port_aliases (String.mk "orphan".data) = []
    ∧ build_port_aliases ("a=b" ++ String.mk [' ']) = build_port_aliases "a=b" := by
  have h := host_map_grammar_amended
    [("node1".data, "p1".data), ("node2".data, "p,2".data)] ';'
    "orphan".data "a=b" ' '
    (Or.inr (Or.inr rfl))
    (by decide) (by decide) (by decide) (Or.inl rfl)
  exact ⟨h.1, h.2.1, h.2.2⟩
